import Mathlib

/-!
Verification of the Voicebot call-termination engine.

The repository contains several near-duplicate WebSocket relay servers
(src/unnamed/part_000 .. part_004, src/campaign-outbound.js,
src/simple-websocket-server.js).  Each server owns one session per phone
call and decides when the call may be terminated.  This file shallowly
embeds the decision logic of those handlers:

* JS strings are modelled as `List Char`; `String.prototype.toLowerCase`
  as a character-wise map (faithful for the ASCII texts involved);
  `String.prototype.includes` as `containsSub`; the JS `||` on strings
  (falsy empty string) as `jsOr`.
* The per-connection mutable `let` variables of a handler become the
  `Session` record; each WebSocket/timer callback becomes a step function
  from `Session` to `Session × List Action`, where `Action` records the
  externally visible effects (frames sent, sockets closed, setup attempts).
* `setTimeout`/`clearTimeout` on the closing-phrase timer become the
  `grace : Option Grace` field (live scheduled callback) plus a `stale`
  flag for the JS handle variable staying truthy after a fire/clear.
* Node's `Buffer.from(s, "base64").toString("base64")` becomes `relayB64`.
-/

namespace Voicebot

set_option maxRecDepth 10000

/-- JS strings modelled as lists of characters. -/
abbrev Str := List Char

/-- Shorthand turning a Lean string literal into the model's string type. -/
def strLit (s : String) : Str := s.data

/-- JS `String.prototype.toLowerCase`, character-wise (exact for ASCII). -/
def jsLower (s : Str) : Str := s.map Char.toLower

/-- JS `a || b` on strings: the empty string is falsy. -/
def jsOr (a b : Str) : Str := if a.isEmpty then b else a

/-- JS `hay.includes (needle)`: substring containment. -/
def containsSub : Str → Str → Bool
  | [], needle => needle.isEmpty
  | c :: t, needle => needle.isPrefixOf (c :: t) || containsSub t needle

/-- JS `s.substring (Math.max (0, s.length - n))`: the final `n` characters. -/
def lastN (n : Nat) (s : Str) : Str := s.drop (s.length - n)

/-- The four allow-listed closing phrases, as written (lower-case) in every
variant of the source (`closingPhrases` / `allowedClosingPhrases`). -/
def closingPhrases : List Str :=
  [strLit "nog een fijne dag", strLit "prettige dag", strLit "fijne dag",
   strLit "succes met uw accreditatie"]

/-- `closingPhrases.some (phrase => text.includes (phrase))` on an already
lower-cased text. -/
def hasPhrase (t : Str) : Bool := closingPhrases.any (fun p => containsSub t p)

/-- Loop body of part_002's `checkForClosingPhrase` (lines 330-447): for each
phrase found anywhere in the lower-cased text, return `true` only when the
phrase also occurs within the final 150 characters, otherwise keep looking at
the remaining phrases. -/
def checkLoop (lower : Str) : List Str → Bool
  | [] => false
  | p :: rest =>
    if containsSub lower p then
      if containsSub (lastN 150 lower) p then true else checkLoop lower rest
    else checkLoop lower rest

/-- part_002 `checkForClosingPhrase` (lines 330-447), as a predicate on the
text: `true` iff the function returns `true` (a phrase occurs at the end of
the text).  The flag / timer side effects are applied by `phraseStep` below. -/
def checkForClosingPhrase (text : Str) : Bool :=
  checkLoop (jsLower text) closingPhrases

/-- part_000 `checkForClosingPhrase` (lines 136-192) and the identical
campaign-outbound.js variant (lines 75-138): a phrase occurring anywhere in
the text counts; there is no at-the-end restriction. -/
def checkForClosingPhrase000 (text : Str) : Bool := hasPhrase (jsLower text)

/-! ### Base64 (Node `Buffer.from (payload, "base64").toString ("base64")`)

Every media-forwarding site of the repository (simple-websocket-server.js
lines 222-231, part_002 lines 1547-1554, part_000 lines 890-897, part_001
lines 160-164) re-packages the inbound Twilio payload as
`Buffer.from (msg.media.payload, "base64").toString ("base64")`: a lenient
base64 decode (characters outside the alphabet, including padding, are
skipped; a trailing group of 2 or 3 sextets yields 1 or 2 bytes; a lone
trailing sextet is dropped) followed by a canonical re-encode. -/

/-- The standard base64 alphabet in encoding order. -/
def b64Alphabet : List Char :=
  strLit "ABCDEFGHIJKLMNOPQRSTUVWXYZabcdefghijklmnopqrstuvwxyz0123456789+/"

/-- Index search used to decode one base64 character. -/
def b64IndexAux : List Char → Char → Nat → Option Nat
  | [], _, _ => none
  | a :: t, c, i => if a = c then some i else b64IndexAux t c (i + 1)

/-- Value of a base64 character; `none` for padding and foreign characters. -/
def b64Val (c : Char) : Option Nat := b64IndexAux b64Alphabet c 0

/-- Character encoding a sextet value. -/
def b64CharOf (v : Nat) : Char := b64Alphabet.getD v 'A'

/-- Packing of bytes into sextets (the decoder's inverse direction). -/
def sextetsOfBytes : List Nat → List Nat
  | a :: b :: c :: rest =>
    a / 4 :: (a % 4 * 16 + b / 16) :: (b % 16 * 4 + c / 64) :: c % 64 ::
      sextetsOfBytes rest
  | [a, b] => [a / 4, a % 4 * 16 + b / 16, b % 16 * 4]
  | [a] => [a / 4, a % 4 * 16]
  | [] => []

/-- Unpacking of a sextet stream into bytes; a lone trailing sextet carries
fewer than 8 bits and is dropped, matching Node's lenient decoder. -/
def bytesOfSextets : List Nat → List Nat
  | w :: x :: y :: z :: rest =>
    (w * 4 + x / 16) :: (x % 16 * 16 + y / 4) :: (y % 4 * 64 + z) ::
      bytesOfSextets rest
  | [w, x, y] => [w * 4 + x / 16, x % 16 * 16 + y / 4]
  | [w, x] => [w * 4 + x / 16]
  | [_] => []
  | [] => []

/-- Node `Buffer.from (s, "base64")`: bytes of the lenient decode. -/
def b64decode (s : Str) : List Nat := bytesOfSextets (s.filterMap b64Val)

/-- Node `buf.toString ("base64")`: canonical encoding with `=` padding. -/
def b64encode : List Nat → Str
  | a :: b :: c :: rest =>
    b64CharOf (a / 4) :: b64CharOf (a % 4 * 16 + b / 16) ::
      b64CharOf (b % 16 * 4 + c / 64) :: b64CharOf (c % 64) :: b64encode rest
  | [a, b] => [b64CharOf (a / 4), b64CharOf (a % 4 * 16 + b / 16),
               b64CharOf (b % 16 * 4), '=']
  | [a] => [b64CharOf (a / 4), b64CharOf (a % 4 * 16), '=', '=']
  | [] => []

/-- The payload transformation the relay applies to every forwarded inbound
media frame: `Buffer.from (payload, "base64").toString ("base64")`. -/
def relayB64 (p : Str) : Str := b64encode (b64decode p)

/-! ### ElevenLabs wire messages -/

/-- A tool invocation as it appears in the provider's messages. -/
structure ToolCall where
  tool_name : Str
deriving DecidableEq

/-- One turn of a `transcript` array.  An absent `tool_calls` field and a
present empty array behave identically in every loop of the source, so both
are `[]`. -/
structure Turn where
  tool_calls : List ToolCall := []
  agent_response : Str := []
deriving DecidableEq

/-- The `agent_response_event` substructure. -/
structure RespEvent where
  agent_response : Str := []
  tool_calls : List ToolCall := []
deriving DecidableEq

/-- An ElevenLabs message as far as the handlers inspect it.  `mtype` is the
`type` discriminator; `tool_calls`/`transcript` are `Option` because the
source distinguishes an absent field from a present (truthy) array at the
`toolCallsArray` extraction; `termination_reason = []` means absent;
`audioPayload` is `message.audio?.chunk || message.audio_event?.audio_base_64`
(`[]` when missing). -/
structure AIMessage where
  mtype : Str := []
  tool_calls : Option (List ToolCall) := none
  transcript : Option (List Turn) := none
  respEvent : Option RespEvent := none
  termination_reason : Str := []
  audioPayload : Str := []
deriving DecidableEq

/-- Whether a tool-call list mentions the `end_call` tool. -/
def tcHasEnd (l : List ToolCall) : Bool :=
  l.any (fun tc => tc.tool_name = strLit "end_call")

/-- `checkForEndCallTool` (part_000 lines 336-376, part_002 lines 771-811,
campaign-outbound.js lines 208-249): probe the message root, every transcript
turn and the agent-response event for an `end_call` tool invocation. -/
def checkForEndCallTool (m : AIMessage) : Bool :=
  (match m.tool_calls with | some l => tcHasEnd l | none => false)
  || (match m.transcript with
      | some ts => ts.any (fun t => tcHasEnd t.tool_calls)
      | none => false)
  || (match m.respEvent with | some a => tcHasEnd a.tool_calls | none => false)

/-- `(message.agent_response_event?.agent_response ||
message.transcript?.[0]?.agent_response || "").toLowerCase ()` — the current
message's agent text used by `hasPrematureEndCall`. -/
def currentAgentText (m : AIMessage) : Str :=
  jsLower (jsOr (match m.respEvent with | some a => a.agent_response | none => [])
                (match m.transcript with | some (t :: _) => t.agent_response | _ => []))

/-! ### Session state of the part_002 handler

One record per `/campaign-media-stream` connection, holding the handler's
`let` variables (part_002 lines 121-136).  The closing-phrase timer is
`grace` (the live scheduled callback, with its delay and the
"still speaking" threshold its callback compares `timeSinceLastAudio`
against) together with `stale` (the JS variable still holds a fired or
cleared handle, which is truthy). -/

/-- Which site armed the pending hang-up callback. -/
inductive ArmSrc
  | phrase
  | directive
  | convEnd
  | audioReset
deriving DecidableEq

/-- A live closing-phrase timer. -/
structure Grace where
  armedAt : Nat
  delay : Nat
  thresh : Nat
  src : ArmSrc
deriving DecidableEq

/-- The per-call mutable state of the part_002 handler. -/
structure Session where
  flag : Bool := false
  lastAgentResponse : Str := []
  lastActivity : Nat := 0
  lastAudioTime : Nat := 0
  callStartTime : Nat := 0
  resetCount : Nat := 0
  callEnding : Bool := false
  buffer : List Str := []
  ready : Bool := false
  aiOpen : Bool := false
  setupAttempted : Bool := false
  stream : Bool := false
  callSid : Bool := false
  grace : Option Grace := none
  stale : Bool := false
  silenceArmed : Bool := false
  chainEntered : Bool := false
deriving DecidableEq

/-- Externally visible effects of a handler invocation. -/
inductive Action
  | sendStop
  | closeAI
  | closeTw
  | forwardOut (payload : Str)
  | sendUserChunk (payload : Str)
  | armDirective
  | attemptSetup
deriving DecidableEq

/-- Fresh session state at connection time `t0` (part_002 lines 121-136). -/
def initSession (t0 : Nat) : Session :=
  { lastActivity := t0, lastAudioTime := t0, callStartTime := t0 }

/-- `safeEndCall` (part_002 lines 283-325): refuse to end unless the flag is
set; otherwise raise `callEnding`, discard the buffer, stop the Twilio
stream, and schedule both sockets' closure.  The timers are NOT cleared
here. -/
def safeEndCall (s : Session) : Session × List Action :=
  if s.flag then
    ({ s with callEnding := true, buffer := [] },
     (if s.stream then [Action.sendStop] else [])
       ++ (if s.aiOpen then [Action.closeAI] else []) ++ [Action.closeTw])
  else (s, [])

/-- `forceEndCall` (part_002 lines 234-254): unconditional stop + closes,
used only by the silence-timer ceilings; it does not set `callEnding`. -/
def forceEndCall (s : Session) : Session × List Action :=
  (s, (if s.stream then [Action.sendStop] else [])
        ++ (if s.aiOpen then [Action.closeAI] else []) ++ [Action.closeTw])

/-- `MAX_INACTIVITY_TIME` (5 minutes, part_002 line 151). -/
def maxInactivity : Nat := 300000

/-- `MAX_CALL_DURATION` (10 minutes, part_002 line 153). -/
def maxCallDuration : Nat := 600000

/-- `MAX_SILENCE_RESETS` (part_002 line 155). -/
def maxSilenceResets : Nat := 20

/-- The silence-timer callback (part_002 lines 143-231) fired at `now`.
Without the flag it increments the reset counter and checks the three
ceilings before re-arming; with the flag it resets the counter and runs
`safeEndCall`. -/
def silenceFireStep (now : Nat) (s : Session) : Session × List Action :=
  let tsla := now - s.lastActivity
  let dur := now - s.callStartTime
  if !s.flag then
    let s1 := { s with resetCount := s.resetCount + 1 }
    if tsla > maxInactivity then forceEndCall { s1 with silenceArmed := false }
    else if dur > maxCallDuration then forceEndCall { s1 with silenceArmed := false }
    else if s1.resetCount > maxSilenceResets then
      forceEndCall { s1 with silenceArmed := false }
    else ({ s1 with silenceArmed := true }, [])
  else safeEndCall { s with resetCount := 0, silenceArmed := false }

/-- The closing-phrase timer callback fired at `now` (the `setTimeout`
callbacks armed at part_002 lines 380-431, 941-982, 1033-1056, 1143-1159,
1282-1310, 1342-1359).  Every callback compares `timeSinceLastAudio` with a
site-specific threshold: below it the bot is still speaking and the callback
descends into nested extra waits (recorded here as `chainEntered`, proved
unreachable); otherwise it calls `safeEndCall`. -/
def graceFireStep (now : Nat) (s : Session) : Session × List Action :=
  match s.grace with
  | none => (s, [])
  | some g =>
    let s1 := { s with grace := none, stale := true }
    if now - s.lastAudioTime < g.thresh then
      ({ s1 with chainEntered := true }, [])
    else safeEndCall s1

/-- Pre-step of the end-call handling (part_002 lines 897-925): when the
message carries an `end_call` tool and its own agent text contains a closing
phrase, set the flag before judging prematurity. -/
def preFlag (s : Session) (m : AIMessage) : Bool :=
  s.flag || (checkForEndCallTool m && hasPhrase (currentAgentText m))

/-- The `agent_response` section's closing-phrase handling (part_002 lines
1165-1204): run the matcher on the new text and, when it matches at the end
and the flag is still down, set the flag and arm the 25 s hang-up. -/
def phraseStep (now : Nat) (text : Str) (s : Session) : Session :=
  if checkForClosingPhrase text && !s.flag then
    { s with flag := true, grace := some ⟨now, 25000, 5000, ArmSrc.phrase⟩,
             stale := false }
  else s

/-- The `toolCallsArray` extraction (part_002 lines 1207-1235).  A present
root `tool_calls` (even an empty array, which is truthy) wins; otherwise all
transcript turns are collected.  The third `else if` branch of the source is
unreachable when `transcript` is an array and is omitted. -/
def toolCallsArray (m : AIMessage) : List ToolCall :=
  match m.tool_calls with
  | some l => l
  | none =>
    match m.transcript with
    | some ts => ts.foldl (fun acc t => acc ++ t.tool_calls) []
    | none => []

/-- The agent text consulted by the `toolCallsArray` loop (part_002 lines
1242-1247): `(message.agent_response_event?.agent_response ||
message.transcript?.[0]?.agent_response || lastAgentResponse ||
"").toLowerCase ()`, against the session's tracked `lastAgentResponse` as
updated by this message. -/
def tcaText (m : AIMessage) (s : Session) : Str :=
  jsLower (jsOr (match m.respEvent with | some a => a.agent_response | none => [])
    (jsOr (match m.transcript with | some (t :: _) => t.agent_response | _ => [])
      s.lastAgentResponse))

/-- Tail of the ElevenLabs message handler after the `agent_response`
section: the `toolCallsArray` loop (part_002 lines 1237-1313), the
conversation-end handling (lines 1315-1361) and `user_transcript`
(lines 1363-1370). -/
def restStep (now : Nat) (m : AIMessage) (s : Session) : Session × List Action :=
  if tcHasEnd (toolCallsArray m) then
    if s.flag && hasPhrase (tcaText m s) then
      ({ s with grace := some ⟨now, 15000, 5000, ArmSrc.directive⟩, stale := false },
       [Action.armDirective])
    else (s, [])
  else if m.mtype = strLit "conversation_end" || !m.termination_reason.isEmpty then
    if s.flag then
      ({ s with grace := some ⟨now, 10000, 3000, ArmSrc.convEnd⟩, stale := false }, [])
    else (s, [])
  else if m.mtype = strLit "user_transcript" then
    ({ s with lastActivity := now }, [])
  else (s, [])

/-- The agent text used by `hasPrematureEndCall` (part_002 lines 818-828):
the current message's text, or the session's tracked last utterance when that
is empty. -/
def agentTextFallback (s : Session) (m : AIMessage) : Str :=
  jsOr (currentAgentText m) (jsLower s.lastAgentResponse)

/-- The flag pre-step plus the guarded main end-call arming (part_002 lines
897-986): with an `end_call` tool present, first set the flag if the current
message's own text contains a closing phrase, then arm the 20 s hang-up
unless `hasPrematureEndCall` suppresses the directive. -/
def siteAStep (now : Nat) (m : AIMessage) (s : Session) : Session × List Action :=
  let s1 := { s with flag := preFlag s m }
  if checkForEndCallTool m && (s1.flag && hasPhrase (agentTextFallback s m)) then
    ({ s1 with grace := some ⟨now, 20000, 5000, ArmSrc.directive⟩, stale := false },
     [Action.armDirective])
  else (s1, [])

/-- The audio section (part_002 lines 988-1060): forward the chunk to the
telephony leg, refresh the activity and audio stamps, and — when the flag is
set and the closing-timer variable is truthy — cancel and re-arm the pending
hang-up with a fresh 10 s wait. -/
def audioSec (now : Nat) (m : AIMessage) (s : Session) : Session × List Action :=
  if m.mtype = strLit "audio" && s.stream then
    let sa := { s with lastActivity := now, resetCount := 0, lastAudioTime := now }
    let sb :=
      if sa.flag && (sa.grace.isSome || sa.stale) then
        match sa.grace with
        | some g => { sa with grace := some ⟨now, 10000, 5000, g.src⟩, stale := false }
        | none => { sa with grace := some ⟨now, 10000, 5000, ArmSrc.audioReset⟩,
                            stale := false }
      else sa
    (sb, [Action.forwardOut m.audioPayload])
  else (s, [])

/-- The `agent_response` section (part_002 lines 1062-1205) followed by
`restStep`: track the new utterance, handle an `end_call` nested in
`agent_response_event.tool_calls` behind the closing-phrase gate, otherwise
run the phrase matcher; non-`agent_response` messages go straight to
`restStep`. -/
def agentSec (now : Nat) (m : AIMessage) (s : Session) : Session × List Action :=
  if m.mtype = strLit "agent_response" then
    let text := match m.respEvent with | some a => a.agent_response | none => []
    let s4 := { s with lastAgentResponse := text }
    if tcHasEnd (match m.respEvent with | some a => a.tool_calls | none => []) then
      if s4.flag && hasPhrase (jsLower text) then
        ({ s4 with grace := some ⟨now, 15000, 3000, ArmSrc.directive⟩, stale := false },
         [Action.armDirective])
      else (s4, [])
    else restStep now m { phraseStep now text s4 with lastActivity := now }
  else restStep now m s

/-- The ElevenLabs `message` handler of part_002 (lines 712-1380), as a step
function at time `now`: `siteAStep`, then `audioSec`, then `agentSec`. -/
def aiMessageStep (now : Nat) (m : AIMessage) (s : Session) :
    Session × List Action :=
  let r1 := siteAStep now m s
  let r2 := audioSec now m r1.1
  let r3 := agentSec now m r2.1
  (r3.1, r1.2 ++ (r2.2 ++ r3.2))

/-- The Twilio `media` handler of part_002 (lines 1387-1595) at time `now`:
drop everything while `callEnding`; with the AI leg open and ready, relay the
payload as a `user_audio_chunk`; otherwise run the one-shot fallback setup
(lines 1398-1513) and buffer the frame into the 50-frame queue
(lines 1515-1531). -/
def mediaStep (now : Nat) (payload : Str) (s : Session) : Session × List Action :=
  if s.callEnding then (s, [])
  else if !(s.aiOpen && s.ready) then
    let (s1, a1) :=
      if !s.setupAttempted && s.callSid then
        ({ s with setupAttempted := true }, [Action.attemptSetup])
      else (s, [])
    let s2 :=
      if !payload.isEmpty then
        let b := s1.buffer ++ [payload]
        { s1 with buffer := if b.length > 50 then b.tail else b }
      else s1
    (s2, a1)
  else
    ({ s with lastActivity := now, resetCount := 0 },
     [Action.sendUserChunk (relayB64 payload)])

/-- The ElevenLabs `open` handler (part_002 lines 541-685): mark the AI leg
ready and flush the buffered frames in order (unless the call is ending, in
which case the buffer is discarded). -/
def aiOpenStep (now : Nat) (s : Session) : Session × List Action :=
  if s.callEnding then
    ({ s with aiOpen := true, ready := true, buffer := [] }, [])
  else
    ({ s with aiOpen := true, ready := true, buffer := [],
              lastActivity := now, resetCount := 0, silenceArmed := true },
     s.buffer.map (fun p => Action.sendUserChunk (relayB64 p)))

/-- The Twilio `start` handler (part_002 lines 489-1385), state effects only:
record the stream/call identifiers, stamp the call start, arm the silence
timer. -/
def startStep (now : Nat) (s : Session) : Session :=
  { s with stream := true, callSid := true, callStartTime := now,
           lastActivity := now, resetCount := 0, silenceArmed := true }

/-- The Twilio `stop` handler (part_002 lines 1597-1628): without the flag
the stop is ignored; with it, both timers are cleared and the AI socket is
closed. -/
def stopStep (s : Session) : Session × List Action :=
  if !s.flag then (s, [])
  else ({ s with grace := none, stale := s.grace.isSome || s.stale,
                 silenceArmed := false, aiOpen := false },
        if s.aiOpen then [Action.closeAI] else [])

/-- The Twilio `close` handler (part_002 lines 1641-1658): clear both timers
and close the AI socket. -/
def closeTwStep (s : Session) : Session × List Action :=
  ({ s with grace := none, stale := s.grace.isSome || s.stale,
            silenceArmed := false, aiOpen := false, stream := false },
   if s.aiOpen then [Action.closeAI] else [])

/-- Events a session can process. -/
inductive Ev
  | start
  | media (payload : Str)
  | aiopen
  | ai (m : AIMessage)
  | silenceFire
  | graceFire
  | stop
  | closeTw
deriving DecidableEq

/-- One processed event at time `now`. -/
def stepF (now : Nat) (e : Ev) (s : Session) : Session × List Action :=
  match e with
  | Ev.start => (startStep now s, [])
  | Ev.media p => mediaStep now p s
  | Ev.aiopen => aiOpenStep now s
  | Ev.ai m => aiMessageStep now m s
  | Ev.silenceFire => silenceFireStep now s
  | Ev.graceFire => graceFireStep now s
  | Ev.stop => stopStep s
  | Ev.closeTw => closeTwStep s

/-- When an event may be processed at time `now`: a grace-timer fire only
happens when the timer is live and its delay has elapsed, a silence fire only
while that timer is armed. -/
def enabled (s : Session) (now : Nat) : Ev → Prop
  | Ev.graceFire => ∃ g, s.grace = some g ∧ now = g.armedAt + g.delay
  | Ev.silenceFire => s.silenceArmed = true
  | _ => True

/-- Reachable session states, carrying the time of the last processed event;
events are processed in nondecreasing time order. -/
inductive Reach : Session → Nat → Prop
  | init (t0 : Nat) : Reach (initSession t0) t0
  | step {s : Session} {t : Nat} (t' : Nat) (e : Ev) :
      Reach s t → t ≤ t' → enabled s t' e → Reach (stepF t' e s).1 t'

/-! ### The campaign-outbound.js handler

The `/campaign-media-stream` handler of src/campaign-outbound.js is an
earlier revision: no `safeEndCall` wrapper and no flag check at the timer
callbacks — every armed hang-up callback unconditionally sends the stop
frame and closes both sockets.  Only the decision logic relevant to the
termination claims is embedded. -/

/-- `hasPrematureEndCall` of campaign-outbound.js (lines 251-304): an
end-call directive is premature exactly when `closingPhraseDetected` is
still false; the agent text is inspected only for logging. -/
def campPremature (s : Session) (m : AIMessage) : Bool :=
  checkForEndCallTool m && !s.flag

/-- Tail of the campaign-outbound ElevenLabs handler: the `toolCallsArray`
loop (lines 469-558), which arms a 15 s hang-up for any `end_call` with NO
closing-phrase guard, and the guarded conversation-end handling
(lines 560-620). -/
def campRest (now : Nat) (m : AIMessage) (s : Session) : Session :=
  if tcHasEnd (toolCallsArray m) then
    { s with grace := some ⟨now, 15000, 5000, ArmSrc.directive⟩, stale := false }
  else if m.mtype = strLit "conversation_end" || !m.termination_reason.isEmpty then
    if s.flag then
      { s with grace := some ⟨now, 10000, 3000, ArmSrc.convEnd⟩, stale := false }
    else s
  else s

/-- The campaign-outbound ElevenLabs `message` handler (lines 197-637),
state effects of the termination logic: the guarded main end-call arming
(lines 306-383, premature = no flag), the `agent_response` section whose
`end_call` arming (lines 412-459) has NO closing-phrase guard, the
anywhere-match phrase detection (lines 75-138, 461-463), then
`campRest`. -/
def campAiStep (now : Nat) (m : AIMessage) (s : Session) : Session :=
  let s1 :=
    if checkForEndCallTool m && !campPremature s m then
      { s with grace := some ⟨now, 20000, 5000, ArmSrc.directive⟩, stale := false }
    else s
  if m.mtype = strLit "agent_response" then
    let text := match m.respEvent with | some a => a.agent_response | none => []
    let s2 := { s1 with lastAgentResponse := text }
    if tcHasEnd (match m.respEvent with | some a => a.tool_calls | none => []) then
      { s2 with grace := some ⟨now, 15000, 3000, ArmSrc.directive⟩, stale := false }
    else
      let s3 :=
        if checkForClosingPhrase000 text && !s2.flag then
          { s2 with flag := true, grace := some ⟨now, 10000, 3000, ArmSrc.phrase⟩,
                    stale := false }
        else s2
      campRest now m s3
  else campRest now m s1

/-- A campaign-outbound hang-up callback firing (e.g. the 15 s timer armed at
lines 422-455 or 511-555): every leaf of the callback sends the stop frame
and closes both sockets; `timeSinceLastAudio` only selects extra delay, and
`closingPhraseDetected` is never consulted. -/
def campGraceFire (tsla : Nat) (s : Session) : List Action :=
  if tsla < 5000 then
    (if s.stream then [Action.sendStop] else [])
      ++ (if s.aiOpen then [Action.closeAI] else []) ++ [Action.closeTw]
  else
    (if s.stream then [Action.sendStop] else [])
      ++ (if s.aiOpen then [Action.closeAI] else []) ++ [Action.closeTw]

/-- The campaign-outbound silence-timer callback (lines 58-70): after 25 s
without activity it unconditionally stops the stream and closes both
sockets — no closing-phrase check and no ceiling logic. -/
def campSilenceFire (s : Session) : List Action :=
  (if s.stream then [Action.sendStop] else [])
    ++ (if s.aiOpen then [Action.closeAI] else []) ++ [Action.closeTw]

/-! ### The part_000 audio handler (for the grace-timer reset claim) -/

/-- The audio branch of part_000's ElevenLabs handler (lines 553-587): the
frame is forwarded and `lastActivity` / `lastAudioTime` are refreshed, but —
unlike part_002 lines 1022-1057 — an armed closing-phrase timer is NOT
cancelled or re-armed. -/
def aiAudioStep000 (now : Nat) (m : AIMessage) (s : Session) : Session × List Action :=
  if m.mtype = strLit "audio" && s.stream then
    ({ s with lastActivity := now, lastAudioTime := now },
     [Action.forwardOut m.audioPayload])
  else (s, [])

/-! ### Concrete inputs for witnesses and counterexamples -/

/-- A message carrying only an end-call tool inside
`agent_response_event.tool_calls`, with agent text that announces account
activation but contains no closing phrase. -/
def activateEndMsg : AIMessage :=
  { mtype := strLit "agent_response",
    respEvent := some { agent_response := strLit "Dus activeer ik nu uw account.",
                        tool_calls := [⟨strLit "end_call"⟩] } }

/-- An agent response ending in a closing phrase, no tool calls. -/
def goodbyeMsg : AIMessage :=
  { mtype := strLit "agent_response",
    respEvent := some { agent_response := strLit "Bedankt, nog een fijne dag." } }

/-- An end-call directive in the message root, with a closing phrase in the
agent text. -/
def goodbyeEndMsg : AIMessage :=
  { mtype := strLit "agent_response",
    tool_calls := some [⟨strLit "end_call"⟩],
    respEvent := some { agent_response := strLit "Bedankt, nog een fijne dag." } }

/-- A plain agent audio frame. -/
def audioMsg : AIMessage :=
  { mtype := strLit "audio", audioPayload := strLit "UklGRg" }

/-- A session that has started and said goodbye: reachable state used by the
witnesses (start at time 1, goodbye utterance at time 5). -/
def sessGoodbye : Session :=
  (stepF 5 (Ev.ai goodbyeMsg) (stepF 1 Ev.start (initSession 0)).1).1

/-- The Termination Guard acceptance condition as the specification words it
(spec section 4.3): `closingPhraseDetected` at the time of evaluation (the
flag, or the current message's own text setting it) AND the most recent agent
utterance — the current message's text or, when that is absent, the tracked
last utterance — contains an allow-listed closing phrase. -/
def endCallGuard (s : Session) (m : AIMessage) : Bool :=
  (s.flag || hasPhrase (currentAgentText m))
    && hasPhrase (jsOr (currentAgentText m) (jsLower s.lastAgentResponse))

/-- Session invariant at time `t`: the last audio stamp is in the past; the
pending queue is bounded; no grace callback ever entered a
"still speaking" wait chain; a terminating session has an empty queue; and a
live grace timer was armed after the last audio, with a delay of at least
10 s and a speaking threshold of at most 5 s. -/
abbrev Inv (t : Nat) (s : Session) : Prop :=
  s.lastAudioTime ≤ t ∧
  s.buffer.length ≤ 50 ∧
  s.chainEntered = false ∧
  (s.callEnding = true → s.buffer = []) ∧
  (∀ g, s.grace = some g →
    s.flag = true ∧ s.lastAudioTime ≤ g.armedAt ∧ g.armedAt ≤ t ∧
    10000 ≤ g.delay ∧ g.thresh ≤ 5000)

/-- part_000's closing-phrase side effects (lines 146-190): the flag is set
and a 10 s hang-up armed on a phrase match ANYWHERE in the text (its callback
compares `timeSinceLastAudio` with 3000). -/
def phraseStep000 (now : Nat) (text : Str) (s : Session) : Session :=
  if checkForClosingPhrase000 text && !s.flag then
    { s with flag := true, grace := some ⟨now, 10000, 3000, ArmSrc.phrase⟩,
             stale := false }
  else s

/-- A text whose only closing phrase lies before the final 150 characters. -/
def earlyPhraseText : Str := strLit "fijne dag" ++ List.replicate 150 'x'

/-- A part_000 session that has detected a closing phrase: flag set, the 10 s
hang-up armed at time 0, no audio since session start. -/
def sess000 : Session :=
  { flag := true, stream := true, callSid := true, aiOpen := true, ready := true,
    grace := some ⟨0, 10000, 3000, ArmSrc.phrase⟩, silenceArmed := true }

/-- A terminating part_002 session (safeEndCall has run). -/
def sEnding : Session :=
  { flag := true, stream := true, callSid := true, aiOpen := true, ready := true,
    callEnding := true }

/-- The part_002 session right after the Twilio `start` event whose ElevenLabs
setup failed: identifiers known, no AI leg, no fallback attempted yet. -/
def sSetupFailed : Session := startStep 1 (initSession 0)

/-- A session with the AI leg open and ready. -/
def sReady : Session :=
  { stream := true, callSid := true, aiOpen := true, ready := true }

/-- A campaign-outbound session mid-call with no closing phrase detected. -/
def c1s0 : Session := { stream := true, callSid := true, aiOpen := true }

/-- A 50-frame pending-audio queue. -/
def buf50 : List Str := List.replicate 50 (strLit "QQ==")

/-- A not-yet-ready session whose queue is full. -/
def sBuf50 : Session := { stream := true, callSid := true, buffer := buf50 }

/-- The goodbye session after its grace timer fires at 25005 (= 5 + 25000). -/
def sessClosed : Session := (stepF 25005 Ev.graceFire sessGoodbye).1

theorem containsSub_nil (needle : Str) : containsSub [] needle = needle.isEmpty := rfl

theorem containsSub_cons (c : Char) (t needle : Str) :
    containsSub (c :: t) needle = (needle.isPrefixOf (c :: t) || containsSub t needle) := rfl

theorem containsSub_of_tail {t needle : Str} (c : Char)
    (h : containsSub t needle = true) : containsSub (c :: t) needle = true := by
  rw [containsSub_cons, h, Bool.or_true]

theorem containsSub_of_drop {s needle : Str} (k : Nat)
    (h : containsSub (s.drop k) needle = true) : containsSub s needle = true := by
  induction s generalizing k with
  | nil => simpa using h
  | cons c t ih =>
    cases k with
    | zero => simpa using h
    | succ k => exact containsSub_of_tail c (ih k (by simpa using h))

theorem containsSub_of_lastN {s needle : Str} (n : Nat)
    (h : containsSub (lastN n s) needle = true) : containsSub s needle = true :=
  containsSub_of_drop (s.length - n) h

/-- The phrase-matcher loop succeeds exactly when some phrase of the list is
contained in the final 150 characters. -/
theorem checkLoop_eq_true_iff (lower : Str) (l : List Str) :
    checkLoop lower l = true ↔ ∃ p ∈ l, containsSub (lastN 150 lower) p = true := by
  induction l with
  | nil => simp [checkLoop]
  | cons p rest ih =>
    by_cases hend : containsSub (lastN 150 lower) p = true
    · have hany : containsSub lower p = true := containsSub_of_lastN 150 hend
      have hstep : checkLoop lower (p :: rest) = true := by
        simp [checkLoop, hany, hend]
      exact iff_of_true hstep ⟨p, List.mem_cons_self p rest, hend⟩
    · have hstep : checkLoop lower (p :: rest) = checkLoop lower rest := by
        by_cases hany : containsSub lower p = true
        · simp [checkLoop, hany, hend]
        · simp [checkLoop, hany]
      rw [hstep, ih]
      constructor
      · rintro ⟨q, hq, hqe⟩; exact ⟨q, List.mem_cons_of_mem p hq, hqe⟩
      · rintro ⟨q, hq, hqe⟩
        rcases List.mem_cons.mp hq with rfl | hq
        · exact absurd hqe hend
        · exact ⟨q, hq, hqe⟩

theorem inv_mono {t t' : Nat} {s : Session} (h : Inv t s) (ht : t ≤ t') :
    Inv t' s := by
  obtain ⟨h1, h2, h3, h4, h5⟩ := h
  exact ⟨h1.trans ht, h2, h3, h4, fun g hg =>
    ⟨(h5 g hg).1, (h5 g hg).2.1, (h5 g hg).2.2.1.trans ht, (h5 g hg).2.2.2⟩⟩

theorem inv_init (t0 : Nat) : Inv t0 (initSession t0) := by
  refine ⟨Nat.le_refl t0, by simp [initSession], rfl, ?_, ?_⟩
  · intro h; cases h
  · intro g hg; cases hg

theorem inv_safeEndCall {t : Nat} {s : Session} (h : Inv t s) :
    Inv t (safeEndCall s).1 := by
  obtain ⟨h1, h2, h3, h4, h5⟩ := h
  unfold safeEndCall
  split
  · exact ⟨h1, by simp, h3, fun _ => rfl, fun g hg => h5 g hg⟩
  · exact ⟨h1, h2, h3, h4, h5⟩

theorem inv_forceEndCall {t : Nat} {s : Session} (h : Inv t s) :
    Inv t (forceEndCall s).1 := h

theorem inv_startStep {t t' : Nat} {s : Session} (h : Inv t s) (ht : t ≤ t') :
    Inv t' (startStep t' s) := by
  obtain ⟨h1, h2, h3, h4, h5⟩ := inv_mono h ht
  exact ⟨h1, h2, h3, h4, h5⟩

theorem inv_stopStep {t : Nat} {s : Session} (h : Inv t s) :
    Inv t (stopStep s).1 := by
  obtain ⟨h1, h2, h3, h4, h5⟩ := h
  unfold stopStep
  split
  · exact ⟨h1, h2, h3, h4, h5⟩
  · exact ⟨h1, h2, h3, h4, fun g hg => by cases hg⟩

theorem inv_closeTwStep {t : Nat} {s : Session} (h : Inv t s) :
    Inv t (closeTwStep s).1 := by
  obtain ⟨h1, h2, h3, h4, h5⟩ := h
  exact ⟨h1, h2, h3, h4, fun g hg => by cases hg⟩

theorem inv_aiOpenStep {t t' : Nat} {s : Session} (h : Inv t s) (ht : t ≤ t') :
    Inv t' (aiOpenStep t' s).1 := by
  obtain ⟨h1, h2, h3, h4, h5⟩ := inv_mono h ht
  unfold aiOpenStep
  split
  · exact ⟨h1, by simp, h3, fun _ => rfl, fun g hg => h5 g hg⟩
  · exact ⟨h1, by simp, h3, fun _ => rfl, fun g hg => h5 g hg⟩

theorem inv_mediaStep {t t' : Nat} {s : Session} {p : Str} (h : Inv t s)
    (ht : t ≤ t') : Inv t' (mediaStep t' p s).1 := by
  obtain ⟨h1, h2, h3, h4, h5⟩ := inv_mono h ht
  by_cases hce : s.callEnding = true
  · simp only [mediaStep, hce, if_true]
    exact ⟨h1, h2, h3, h4, h5⟩
  · by_cases hready : (s.aiOpen && s.ready) = true
    · simp [mediaStep, hce, hready]
      exact ⟨h1, h2, h3, by first | exact h4 | exact fun hx => absurd hx (by simp), fun g hg => h5 g hg⟩
    · by_cases hs : (!s.setupAttempted && s.callSid) = true
      all_goals by_cases hp : p.isEmpty = true
      all_goals simp [mediaStep, hce, hready, hs, hp]
      all_goals refine ⟨h1, ?_, h3,
        by first | exact h4 | exact fun hx => absurd hx (by simp), fun g hg => h5 g hg⟩
      all_goals first
        | exact h2
        | (by_cases hlen : 50 < s.buffer.length + 1
           · simp only [List.length_append, List.length_cons, List.length_nil,
               Nat.zero_add, hlen, if_true, List.length_tail]
             omega
           · simp only [List.length_append, List.length_cons, List.length_nil,
               Nat.zero_add, hlen, if_false]
             omega)

theorem inv_silenceFireStep {t t' : Nat} {s : Session} (h : Inv t s)
    (ht : t ≤ t') : Inv t' (silenceFireStep t' s).1 := by
  obtain ⟨h1, h2, h3, h4, h5⟩ := inv_mono h ht
  by_cases hf : s.flag = true
  · simp only [silenceFireStep, hf, Bool.not_true, Bool.false_eq_true, if_false]
    apply inv_safeEndCall
    refine ⟨h1, h2, h3, h4, fun g hg => ?_⟩
    obtain ⟨_, hb, hc, hd, he⟩ := h5 g hg
    exact ⟨rfl, hb, hc, hd, he⟩
  · have hf' : s.flag = false := by simpa using hf
    have hcon : ∀ g : Grace, s.grace = some g → False := by
      intro g hg
      have hx := (h5 g hg).1
      rw [hf'] at hx
      cases hx
    simp only [silenceFireStep, hf', Bool.not_false, if_true]
    split
    · exact ⟨h1, h2, h3, h4, fun g hg => (hcon g hg).elim⟩
    · split
      · exact ⟨h1, h2, h3, h4, fun g hg => (hcon g hg).elim⟩
      · split
        · exact ⟨h1, h2, h3, h4, fun g hg => (hcon g hg).elim⟩
        · exact ⟨h1, h2, h3, h4, fun g hg => (hcon g hg).elim⟩

theorem inv_graceFireStep {t t' : Nat} {s : Session} (h : Inv t s)
    (ht : t ≤ t') (hen : ∃ g, s.grace = some g ∧ t' = g.armedAt + g.delay) :
    Inv t' (graceFireStep t' s).1 := by
  obtain ⟨h1, h2, h3, h4, h5⟩ := inv_mono h ht
  obtain ⟨g, hg, hfire⟩ := hen
  obtain ⟨hgf, hga, hgt, hgd, hgth⟩ := h5 g hg
  have hnot : ¬ (t' - s.lastAudioTime < g.thresh) := by omega
  simp only [graceFireStep, hg, hnot, if_false]
  exact inv_safeEndCall ⟨h1, h2, h3, h4, fun g' hg' => by cases hg'⟩

theorem inv_siteAStep {t t' : Nat} {s : Session} {m : AIMessage} (h : Inv t s)
    (ht : t ≤ t') : Inv t' (siteAStep t' m s).1 := by
  obtain ⟨h1, h2, h3, h4, h5⟩ := inv_mono h ht
  simp only [siteAStep]
  split
  case isTrue hc =>
    refine ⟨h1, h2, h3, h4, fun g hg => ?_⟩
    cases hg
    have hflag : preFlag s m = true := by
      simp only [Bool.and_eq_true] at hc
      exact hc.2.1
    exact ⟨hflag, h1, Nat.le_refl t', by norm_num, Nat.le_refl 5000⟩
  case isFalse =>
    refine ⟨h1, h2, h3, h4, fun g hg => ?_⟩
    obtain ⟨ha, hb, hc2, hd, he⟩ := h5 g hg
    exact ⟨by simp [preFlag, ha], hb, hc2, hd, he⟩

theorem inv_audioSec {t t' : Nat} {s : Session} {m : AIMessage} (h : Inv t s)
    (ht : t ≤ t') : Inv t' (audioSec t' m s).1 := by
  obtain ⟨h1, h2, h3, h4, h5⟩ := inv_mono h ht
  simp only [audioSec]
  split
  case isTrue hmedia =>
    split
    case isTrue hcc =>
      split
      case h_1 g hg' =>
        refine ⟨Nat.le_refl t', h2, h3, h4, fun g2 hg2 => ?_⟩
        cases hg2
        have hflag : s.flag = true := by
          simp only [Bool.and_eq_true] at hcc
          exact hcc.1
        exact ⟨hflag, Nat.le_refl t', Nat.le_refl t', by norm_num, Nat.le_refl 5000⟩
      case h_2 hnone =>
        refine ⟨Nat.le_refl t', h2, h3, h4, fun g2 hg2 => ?_⟩
        cases hg2
        have hflag : s.flag = true := by
          simp only [Bool.and_eq_true] at hcc
          exact hcc.1
        exact ⟨hflag, Nat.le_refl t', Nat.le_refl t', by norm_num, Nat.le_refl 5000⟩
    case isFalse hcc =>
      refine ⟨Nat.le_refl t', h2, h3, h4, fun g hg => ?_⟩
      exfalso
      apply hcc
      have hflag := (h5 g hg).1
      rw [Bool.and_eq_true, Bool.or_eq_true]
      exact ⟨hflag, Or.inl (by rw [hg]; rfl)⟩
  case isFalse => exact ⟨h1, h2, h3, h4, h5⟩

theorem inv_phraseStep {t' : Nat} {s : Session} {text : Str} (h : Inv t' s) :
    Inv t' (phraseStep t' text s) := by
  obtain ⟨h1, h2, h3, h4, h5⟩ := h
  simp only [phraseStep]
  split
  case isTrue hc =>
    refine ⟨h1, h2, h3, h4, fun g hg => ?_⟩
    cases hg
    exact ⟨rfl, h1, Nat.le_refl t', by norm_num, Nat.le_refl 5000⟩
  case isFalse => exact ⟨h1, h2, h3, h4, h5⟩

theorem inv_restStep {t' : Nat} {s : Session} {m : AIMessage} (h : Inv t' s) :
    Inv t' (restStep t' m s).1 := by
  obtain ⟨h1, h2, h3, h4, h5⟩ := h
  simp only [restStep]
  split
  case isTrue =>
    split
    case isTrue hc =>
      refine ⟨h1, h2, h3, h4, fun g hg => ?_⟩
      cases hg
      have hflag : s.flag = true := by
        simp only [Bool.and_eq_true] at hc
        exact hc.1
      exact ⟨hflag, h1, Nat.le_refl t', by norm_num, Nat.le_refl 5000⟩
    case isFalse => exact ⟨h1, h2, h3, h4, h5⟩
  case isFalse =>
    split
    case isTrue =>
      split
      case isTrue hc =>
        refine ⟨h1, h2, h3, h4, fun g hg => ?_⟩
        cases hg
        exact ⟨hc, h1, Nat.le_refl t', by norm_num, by norm_num⟩
      case isFalse => exact ⟨h1, h2, h3, h4, h5⟩
    case isFalse =>
      split
      case isTrue => exact ⟨h1, h2, h3, h4, h5⟩
      case isFalse => exact ⟨h1, h2, h3, h4, h5⟩

theorem inv_agentSec {t' : Nat} {s : Session} {m : AIMessage} (h : Inv t' s) :
    Inv t' (agentSec t' m s).1 := by
  obtain ⟨h1, h2, h3, h4, h5⟩ := h
  simp only [agentSec]
  split
  case isTrue =>
    split
    case isTrue =>
      split
      case isTrue hc =>
        refine ⟨h1, h2, h3, h4, fun g hg => ?_⟩
        cases hg
        have hflag : s.flag = true := by
          simp only [Bool.and_eq_true] at hc
          exact hc.1
        exact ⟨hflag, h1, Nat.le_refl t', by norm_num, by norm_num⟩
      case isFalse => exact ⟨h1, h2, h3, h4, h5⟩
    case isFalse =>
      have hmid : Inv t' (phraseStep t'
          (match m.respEvent with | some a => a.agent_response | none => [])
          { s with lastAgentResponse :=
              match m.respEvent with | some a => a.agent_response | none => [] }) :=
        inv_phraseStep ⟨h1, h2, h3, h4, fun g hg => h5 g hg⟩
      obtain ⟨g1, g2, g3, g4, g5⟩ := hmid
      exact inv_restStep ⟨g1, g2, g3, g4, fun g hg => g5 g hg⟩
  case isFalse => exact inv_restStep ⟨h1, h2, h3, h4, h5⟩

theorem inv_aiMessageStep {t t' : Nat} {s : Session} {m : AIMessage} (h : Inv t s)
    (ht : t ≤ t') : Inv t' (aiMessageStep t' m s).1 := by
  have hA := @inv_siteAStep t t' s m h ht
  have hB := @inv_audioSec t' t' (siteAStep t' m s).1 m hA (Nat.le_refl t')
  have hC := @inv_agentSec t' (audioSec t' m (siteAStep t' m s).1).1 m hB
  exact hC

theorem inv_stepF {t t' : Nat} {s : Session} {e : Ev} (h : Inv t s) (ht : t ≤ t')
    (hen : enabled s t' e) : Inv t' (stepF t' e s).1 := by
  cases e with
  | start => exact inv_startStep h ht
  | media p => exact inv_mediaStep h ht
  | aiopen => exact inv_aiOpenStep h ht
  | ai m => exact inv_aiMessageStep h ht
  | silenceFire => exact inv_silenceFireStep h ht
  | graceFire => exact inv_graceFireStep h ht hen
  | stop => exact inv_stopStep (inv_mono h ht)
  | closeTw => exact inv_closeTwStep (inv_mono h ht)

/-- Every reachable session state satisfies the invariant. -/
theorem reach_inv {s : Session} {t : Nat} (h : Reach s t) : Inv t s := by
  induction h with
  | init t0 => exact inv_init t0
  | step t' e _ ht hen ih => exact inv_stepF ih ht hen

/-! ### String helper lemmas for the guard characterization -/

theorem jsOr_nil_left (b : Str) : jsOr [] b = b := rfl

theorem jsOr_nil_right (a : Str) : jsOr a [] = a := by
  cases a <;> simp [jsOr]

theorem jsOr_of_ne {a : Str} (b : Str) (h : a.isEmpty = false) : jsOr a b = a := by
  simp [jsOr, h]

theorem jsLower_isEmpty (a : Str) : (jsLower a).isEmpty = a.isEmpty := by
  cases a <;> simp [jsLower]

theorem str_eq_nil_of_isEmpty {a : Str} (h : a.isEmpty = true) : a = [] := by
  cases a
  · rfl
  · simp [List.isEmpty] at h

theorem jsOr_lower (a b : Str) : jsOr (jsLower a) (jsLower b) = jsLower (jsOr a b) := by
  by_cases h : a.isEmpty = true
  · rw [str_eq_nil_of_isEmpty h]
    simp [jsLower, jsOr]
  · have h' : a.isEmpty = false := by simpa using h
    rw [jsOr_of_ne (jsLower b) (by rw [jsLower_isEmpty]; exact h'), jsOr_of_ne b h']

theorem jsOr_assoc (a b c : Str) : jsOr (jsOr a b) c = jsOr a (jsOr b c) := by
  by_cases h : a.isEmpty = true
  · rw [str_eq_nil_of_isEmpty h]
    rfl
  · have h' : a.isEmpty = false := by simpa using h
    rw [jsOr_of_ne b h', jsOr_of_ne c h', jsOr_of_ne (jsOr b c) h']

theorem hasPhrase_nil : hasPhrase [] = false := by decide

theorem ne_nil_of_hasPhrase {t : Str} (h : hasPhrase t = true) : t.isEmpty = false := by
  cases t
  · rw [hasPhrase_nil] at h
    cases h
  · rfl

/-- The agent text of the `toolCallsArray` gate equals the current message's
text falling back to the session's tracked last utterance. -/
theorem tcaText_eq (m : AIMessage) (s : Session) :
    tcaText m s = jsOr (currentAgentText m) (jsLower s.lastAgentResponse) := by
  unfold tcaText currentAgentText
  rw [jsOr_lower, jsOr_assoc]

theorem currentAgentText_of_respText {m : AIMessage} {a : RespEvent}
    (hre : m.respEvent = some a) (h : (a.agent_response).isEmpty = false) :
    currentAgentText m = jsLower a.agent_response := by
  unfold currentAgentText
  rw [hre, jsOr_of_ne _ h]

/-- The current text absorbs a fallback to its own `agent_response`
component: used for the `toolCallsArray` gate after `lastAgentResponse` has
been overwritten with this message's text. -/
theorem jsOr_cur_respText (m : AIMessage) :
    jsOr (currentAgentText m)
      (jsLower (match m.respEvent with | some a => a.agent_response | none => [])) =
      currentAgentText m := by
  rcases hre : m.respEvent with _ | a
  · simp [jsOr_nil_right, jsLower]
  · by_cases h : (a.agent_response).isEmpty = true
    · show jsOr (currentAgentText m) (jsLower a.agent_response) = currentAgentText m
      rw [str_eq_nil_of_isEmpty h]
      simp [jsOr_nil_right, jsLower]
    · have h' : (a.agent_response).isEmpty = false := by simpa using h
      show jsOr (currentAgentText m) (jsLower a.agent_response) = currentAgentText m
      rw [currentAgentText_of_respText hre h']
      exact jsOr_of_ne _ (by rw [jsLower_isEmpty]; exact h')

/-! ### Characterization of the end-call guard -/

theorem preFlag_of_end {s : Session} {m : AIMessage}
    (hEnd : checkForEndCallTool m = true) :
    preFlag s m = (s.flag || hasPhrase (currentAgentText m)) := by
  unfold preFlag
  rw [hEnd, Bool.true_and]

theorem siteA_flag (now : Nat) (m : AIMessage) (s : Session) :
    (siteAStep now m s).1.flag = preFlag s m := by
  simp only [siteAStep]
  split <;> rfl

theorem siteA_last (now : Nat) (m : AIMessage) (s : Session) :
    (siteAStep now m s).1.lastAgentResponse = s.lastAgentResponse := by
  simp only [siteAStep]
  split <;> rfl

theorem siteA_arm_iff (now : Nat) (m : AIMessage) (s : Session) :
    Action.armDirective ∈ (siteAStep now m s).2 ↔
      (checkForEndCallTool m
        && (preFlag s m && hasPhrase (agentTextFallback s m))) = true := by
  simp only [siteAStep]
  split
  case isTrue h => simpa using h
  case isFalse h => simpa using h

theorem audioSec_flag (now : Nat) (m : AIMessage) (s : Session) :
    (audioSec now m s).1.flag = s.flag := by
  simp only [audioSec]
  split
  · split
    · split <;> rfl
    · rfl
  · rfl

theorem audioSec_last (now : Nat) (m : AIMessage) (s : Session) :
    (audioSec now m s).1.lastAgentResponse = s.lastAgentResponse := by
  simp only [audioSec]
  split
  · split
    · split <;> rfl
    · rfl
  · rfl

theorem audioSec_no_arm (now : Nat) (m : AIMessage) (s : Session) :
    Action.armDirective ∉ (audioSec now m s).2 := by
  simp only [audioSec]
  split
  · split
    · split <;> simp
    · simp
  · simp

theorem audioSec_grace_isSome {now : Nat} {m : AIMessage} {s : Session}
    (hf : s.flag = true) (hg : s.grace.isSome = true) :
    (audioSec now m s).1.grace.isSome = true := by
  simp only [audioSec]
  split
  · have hcond : (s.flag && (s.grace.isSome || s.stale)) = true := by
      rw [hf, hg]
      rfl
    rw [if_pos hcond]
    rcases hs : s.grace with _ | g
    · rw [hs] at hg
      cases hg
    · simp [hs]
  · exact hg

theorem restStep_arm_iff (now : Nat) (m : AIMessage) (u : Session) :
    Action.armDirective ∈ (restStep now m u).2 ↔
      (tcHasEnd (toolCallsArray m) && (u.flag && hasPhrase (tcaText m u))) = true := by
  simp only [restStep]
  split
  case isTrue h =>
    split
    case isTrue h2 => simp [h, h2]
    case isFalse h2 => simpa [h] using h2
  case isFalse h =>
    have hh : tcHasEnd (toolCallsArray m) = false := by simpa using h
    split
    · split <;> simp [hh]
    · split <;> simp [hh]

theorem hasPhrase_cur_of_respText {m : AIMessage} {a : RespEvent}
    (hre : m.respEvent = some a)
    (h : hasPhrase (jsLower a.agent_response) = true) :
    hasPhrase (currentAgentText m) = true := by
  have hne : (a.agent_response).isEmpty = false := by
    have := ne_nil_of_hasPhrase h
    rwa [jsLower_isEmpty] at this
  rwa [currentAgentText_of_respText hre hne]

theorem guard_of_hasPhrase_cur {s : Session} {m : AIMessage}
    (h : hasPhrase (currentAgentText m) = true) : endCallGuard s m = true := by
  unfold endCallGuard
  rw [jsOr_of_ne _ (ne_nil_of_hasPhrase h), h, Bool.or_true, Bool.true_and]

theorem phraseStep_last (now : Nat) (text : Str) (s : Session) :
    (phraseStep now text s).lastAgentResponse = s.lastAgentResponse := by
  simp only [phraseStep]
  split <;> rfl

theorem phraseStep_flag (now : Nat) (text : Str) (s : Session) :
    (phraseStep now text s).flag = (s.flag || checkForClosingPhrase text) := by
  simp only [phraseStep]
  split
  case isTrue h =>
    simp only [Bool.and_eq_true] at h
    simp [h.1]
  case isFalse h =>
    rcases hx : checkForClosingPhrase text with _ | _
    · simp
    · rcases hf : s.flag with _ | _
      · exfalso
        apply h
        rw [hx, hf]
        rfl
      · simp

/-- Any directive arming performed by the `agent_response` section or the
`toolCallsArray` loop implies the spec's guard condition, relative to a
session state whose flag is the pre-stepped flag and whose tracked utterance
is still the original one. -/
theorem agentSec_arm_imp {now : Nat} {m : AIMessage} {s u : Session}
    (hEnd : checkForEndCallTool m = true)
    (hfl : u.flag = preFlag s m)
    (hlast : u.lastAgentResponse = s.lastAgentResponse) :
    Action.armDirective ∈ (agentSec now m u).2 → endCallGuard s m = true := by
  intro hmem
  by_cases hAR : m.mtype = strLit "agent_response"
  · rcases hre : m.respEvent with _ | a
    · -- no agent_response_event: text is empty, the matcher finds nothing,
      -- and the toolCallsArray gate falls back through the empty tracked text
      have h1 : tcHasEnd ([] : List ToolCall) = false := rfl
      simp only [agentSec, if_pos hAR, hre, h1, Bool.false_eq_true, if_false] at hmem
      rw [restStep_arm_iff] at hmem
      simp only [Bool.and_eq_true] at hmem
      obtain ⟨htca, hufl, hph⟩ := hmem
      rw [tcaText_eq] at hph
      simp only [phraseStep_last, jsLower, List.map_nil, jsOr_nil_right] at hph
      exact guard_of_hasPhrase_cur hph
    · by_cases hTC : tcHasEnd a.tool_calls = true
      · -- end_call inside agent_response_event.tool_calls: the gate requires
        -- a closing phrase in this message's own text
        simp only [agentSec, if_pos hAR, hre, hTC, if_true] at hmem
        by_cases hgate :
            (({ u with lastAgentResponse := a.agent_response }).flag
              && hasPhrase (jsLower a.agent_response)) = true
        · have hph : hasPhrase (jsLower a.agent_response) = true := by
            simp only [Bool.and_eq_true] at hgate
            exact hgate.2
          exact guard_of_hasPhrase_cur (hasPhrase_cur_of_respText hre hph)
        · rw [if_neg hgate] at hmem
          cases hmem
      · -- no end_call there: the phrase matcher runs, then the
        -- toolCallsArray gate checks this message's text (now also the
        -- tracked one)
        have hTC' : tcHasEnd a.tool_calls = false := by simpa using hTC
        simp only [agentSec, if_pos hAR, hre, hTC', Bool.false_eq_true,
          if_false] at hmem
        rw [restStep_arm_iff] at hmem
        simp only [Bool.and_eq_true] at hmem
        obtain ⟨htca, hufl, hph⟩ := hmem
        rw [tcaText_eq] at hph
        simp only [phraseStep_last] at hph
        have habs : jsOr (currentAgentText m) (jsLower a.agent_response) =
            currentAgentText m := by
          have hx := jsOr_cur_respText m
          rw [hre] at hx
          exact hx
        rw [habs] at hph
        exact guard_of_hasPhrase_cur hph
  · rw [agentSec, if_neg hAR] at hmem
    rw [restStep_arm_iff] at hmem
    simp only [Bool.and_eq_true] at hmem
    obtain ⟨htca, hufl, hph⟩ := hmem
    rw [tcaText_eq, hlast] at hph
    rw [hfl, preFlag_of_end hEnd] at hufl
    unfold endCallGuard
    rw [hufl, hph]
    rfl

theorem mainCond_eq_guard {s : Session} {m : AIMessage}
    (hEnd : checkForEndCallTool m = true) :
    (checkForEndCallTool m
      && (preFlag s m && hasPhrase (agentTextFallback s m))) = endCallGuard s m := by
  rw [hEnd, preFlag_of_end hEnd, Bool.true_and]
  rfl

theorem siteA_grace_of {now : Nat} {m : AIMessage} {s : Session}
    (h : (checkForEndCallTool m
      && (preFlag s m && hasPhrase (agentTextFallback s m))) = true) :
    (siteAStep now m s).1.grace.isSome = true := by
  simp only [siteAStep]
  rw [if_pos h]
  rfl

theorem restStep_acts (now : Nat) (m : AIMessage) (u : Session) :
    ∀ a ∈ (restStep now m u).2, a = Action.armDirective := by
  simp only [restStep]
  split
  · split
    · simp
    · simp
  · split
    · split
      · simp
      · simp
    · split
      · simp
      · simp

theorem agentSec_acts (now : Nat) (m : AIMessage) (u : Session) :
    ∀ a ∈ (agentSec now m u).2, a = Action.armDirective := by
  simp only [agentSec]
  split
  · split
    · split
      · simp
      · simp
    · exact restStep_acts now m _
  · exact restStep_acts now m _

theorem siteA_acts (now : Nat) (m : AIMessage) (s : Session) :
    ∀ a ∈ (siteAStep now m s).2, a = Action.armDirective := by
  simp only [siteAStep]
  split
  · simp
  · simp

theorem audioSec_acts (now : Nat) (m : AIMessage) (s : Session) :
    ∀ a ∈ (audioSec now m s).2, ∃ p, a = Action.forwardOut p := by
  simp only [audioSec]
  split
  · split
    · split
      · intro a ha
        exact ⟨m.audioPayload, by simpa using ha⟩
      · intro a ha
        exact ⟨m.audioPayload, by simpa using ha⟩
    · intro a ha
      exact ⟨m.audioPayload, by simpa using ha⟩
  · simp

theorem restStep_grace_isSome {now : Nat} {m : AIMessage} {u : Session}
    (h : u.grace.isSome = true) : (restStep now m u).1.grace.isSome = true := by
  simp only [restStep]
  split
  · split
    · rfl
    · exact h
  · split
    · split
      · rfl
      · exact h
    · split
      · exact h
      · exact h

theorem phraseStep_grace_isSome {now : Nat} {text : Str} {u : Session}
    (h : u.grace.isSome = true) : (phraseStep now text u).grace.isSome = true := by
  simp only [phraseStep]
  split
  · rfl
  · exact h

theorem agentSec_grace_isSome {now : Nat} {m : AIMessage} {u : Session}
    (h : u.grace.isSome = true) : (agentSec now m u).1.grace.isSome = true := by
  simp only [agentSec]
  split
  · split
    · split
      · rfl
      · exact h
    · exact restStep_grace_isSome (phraseStep_grace_isSome h)
  · exact restStep_grace_isSome h

/-- Claim C2: for every AI-provider message containing an end-call tool
directive, the directive is accepted (a termination timer is armed) if and
only if, at evaluation time, `closingPhraseDetected` holds (the session flag,
or the current message's own text raising it) AND the most recent agent
utterance — the current message's agent-response text or, when absent, the
session's tracked last utterance — contains an allow-listed closing phrase;
otherwise the directive is suppressed: nothing is stopped or closed and the
call continues. -/
theorem c2_endcall_guard (now : Nat) (m : AIMessage) (s : Session)
    (hEnd : checkForEndCallTool m = true) :
    (Action.armDirective ∈ (aiMessageStep now m s).2 ↔ endCallGuard s m = true) ∧
    Action.sendStop ∉ (aiMessageStep now m s).2 ∧
    Action.closeAI ∉ (aiMessageStep now m s).2 ∧
    Action.closeTw ∉ (aiMessageStep now m s).2 ∧
    (endCallGuard s m = true → (aiMessageStep now m s).1.grace.isSome = true) := by
  have hshape : ∀ a ∈ (aiMessageStep now m s).2,
      a = Action.armDirective ∨ ∃ p, a = Action.forwardOut p := by
    intro a ha
    simp only [aiMessageStep, List.mem_append] at ha
    rcases ha with h | h | h
    · exact Or.inl (siteA_acts now m s a h)
    · exact Or.inr (audioSec_acts now m _ a h)
    · exact Or.inl (agentSec_acts now m _ a h)
  refine ⟨⟨?_, ?_⟩, ?_, ?_, ?_, ?_⟩
  · intro hmem
    simp only [aiMessageStep, List.mem_append] at hmem
    rcases hmem with h | h | h
    · rw [← mainCond_eq_guard hEnd]
      exact (siteA_arm_iff now m s).mp h
    · exact absurd h (audioSec_no_arm now m _)
    · exact agentSec_arm_imp hEnd (by rw [audioSec_flag, siteA_flag])
        (by rw [audioSec_last, siteA_last]) h
  · intro hg
    have hmain : (checkForEndCallTool m
        && (preFlag s m && hasPhrase (agentTextFallback s m))) = true := by
      rw [mainCond_eq_guard hEnd]
      exact hg
    simp only [aiMessageStep, List.mem_append]
    exact Or.inl ((siteA_arm_iff now m s).mpr hmain)
  · intro hmem
    rcases hshape _ hmem with h | ⟨p, h⟩
    · exact Action.noConfusion h
    · exact Action.noConfusion h
  · intro hmem
    rcases hshape _ hmem with h | ⟨p, h⟩
    · exact Action.noConfusion h
    · exact Action.noConfusion h
  · intro hmem
    rcases hshape _ hmem with h | ⟨p, h⟩
    · exact Action.noConfusion h
    · exact Action.noConfusion h
  · intro hg
    have hmain : (checkForEndCallTool m
        && (preFlag s m && hasPhrase (agentTextFallback s m))) = true := by
      rw [mainCond_eq_guard hEnd]
      exact hg
    have hflagA : (siteAStep now m s).1.flag = true := by
      rw [siteA_flag]
      simp only [Bool.and_eq_true] at hmain
      exact hmain.2.1
    have h2 := @audioSec_grace_isSome now m (siteAStep now m s).1 hflagA
      (siteA_grace_of hmain)
    have h3 := @agentSec_grace_isSome now m (audioSec now m (siteAStep now m s).1).1 h2
    simpa only [aiMessageStep] using h3

theorem c2_endcall_guard_witness :
    checkForEndCallTool goodbyeEndMsg = true ∧
    ((Action.armDirective ∈ (aiMessageStep 5 goodbyeEndMsg (initSession 0)).2 ↔
        endCallGuard (initSession 0) goodbyeEndMsg = true) ∧
      Action.sendStop ∉ (aiMessageStep 5 goodbyeEndMsg (initSession 0)).2 ∧
      Action.closeAI ∉ (aiMessageStep 5 goodbyeEndMsg (initSession 0)).2 ∧
      Action.closeTw ∉ (aiMessageStep 5 goodbyeEndMsg (initSession 0)).2 ∧
      (endCallGuard (initSession 0) goodbyeEndMsg = true →
        (aiMessageStep 5 goodbyeEndMsg (initSession 0)).1.grace.isSome = true)) :=
  ⟨by decide, c2_endcall_guard 5 goodbyeEndMsg (initSession 0) (by decide)⟩

/-! ### Flag monotonicity infrastructure -/

theorem restStep_flag (now : Nat) (m : AIMessage) (u : Session) :
    (restStep now m u).1.flag = u.flag := by
  simp only [restStep]
  split
  · split <;> rfl
  · split
    · split <;> rfl
    · split <;> rfl

theorem agentSec_flag_mono {now : Nat} {m : AIMessage} {u : Session}
    (h : u.flag = true) : (agentSec now m u).1.flag = true := by
  simp only [agentSec]
  split
  · split
    · split <;> exact h
    · rw [restStep_flag]
      show (phraseStep _ _ _).flag = true
      rw [phraseStep_flag]
      simp [h]
  · rw [restStep_flag]
    exact h

theorem safeEndCall_flag (s : Session) : (safeEndCall s).1.flag = s.flag := by
  simp only [safeEndCall]
  split <;> rfl

theorem silenceFireStep_flag (now : Nat) (s : Session) :
    (silenceFireStep now s).1.flag = s.flag := by
  simp only [silenceFireStep]
  split
  · split
    · rfl
    · split
      · rfl
      · split <;> rfl
  · rw [safeEndCall_flag]

theorem graceFireStep_flag (now : Nat) (s : Session) :
    (graceFireStep now s).1.flag = s.flag := by
  simp only [graceFireStep]
  split
  · rfl
  · split
    · rfl
    · rw [safeEndCall_flag]

theorem mediaStep_flag (now : Nat) (p : Str) (s : Session) :
    (mediaStep now p s).1.flag = s.flag := by
  simp only [mediaStep]
  split
  · rfl
  · split
    · split
      · split <;> rfl
      · split <;> rfl
    · rfl

/-- All event handlers leave the flag set once it is set. -/
theorem stepF_flag_mono {s : Session} {t : Nat} {e : Ev} (h : s.flag = true) :
    (stepF t e s).1.flag = true := by
  cases e with
  | start => exact h
  | media p => rw [stepF, mediaStep_flag]; exact h
  | aiopen =>
    simp only [stepF, aiOpenStep]
    split <;> exact h
  | ai m =>
    simp only [stepF, aiMessageStep]
    apply agentSec_flag_mono
    rw [audioSec_flag, siteA_flag]
    simp [preFlag, h]
  | silenceFire => rw [stepF, silenceFireStep_flag]; exact h
  | graceFire => rw [stepF, graceFireStep_flag]; exact h
  | stop =>
    simp only [stepF, stopStep]
    split <;> exact h
  | closeTw => exact h

/-- Claim C8: `closingPhraseDetected` is monotonic — it starts `false` at
session creation, and no handled event ever resets it: once `true`, it stays
`true` for every subsequent event, hence for the life of the session. -/
theorem c8_flag_monotone :
    (∀ t0, (initSession t0).flag = false) ∧
    (∀ (s : Session) (t : Nat) (e : Ev), s.flag = true →
      (stepF t e s).1.flag = true) :=
  ⟨fun _ => rfl, fun _ _ _ h => stepF_flag_mono h⟩

theorem c8_flag_monotone_witness :
    sessGoodbye.flag = true ∧
    (stepF 6 (Ev.ai audioMsg) sessGoodbye).1.flag = true :=
  ⟨by decide, c8_flag_monotone.2 sessGoodbye 6 (Ev.ai audioMsg) (by decide)⟩

/-- Claim C3 (amended to the part_002 matcher, the variant that implements
the at-utterance-end restriction): `checkForClosingPhrase` reports a match at
the utterance end iff one of the allow-listed phrases occurs,
case-insensitively, within the final 150 characters of the text; and a text
whose phrases occur only earlier (matched anywhere but not at the end) leaves
the session untouched — in particular `closingPhraseDetected` is not set. -/
theorem c3_atEnd_iff (text : Str) (now : Nat) (s : Session) :
    (checkForClosingPhrase text = true ↔
      ∃ p ∈ closingPhrases, containsSub (lastN 150 (jsLower text)) p = true) ∧
    ((hasPhrase (jsLower text) = true ∧ checkForClosingPhrase text = false) →
      phraseStep now text s = s) := by
  constructor
  · exact checkLoop_eq_true_iff (jsLower text) closingPhrases
  · rintro ⟨-, hend⟩
    simp [phraseStep, hend]

theorem c3_atEnd_iff_witness :
    (hasPhrase (jsLower earlyPhraseText) = true ∧
      checkForClosingPhrase earlyPhraseText = false) ∧
    phraseStep 3 earlyPhraseText (initSession 0) = initSession 0 :=
  ⟨⟨by decide, by decide⟩,
    (c3_atEnd_iff earlyPhraseText 3 (initSession 0)).2 ⟨by decide, by decide⟩⟩

/-- Claim C3's counterexample against the part_000 matcher (also cited by the
claim): on a text whose only closing phrase lies before the final 150
characters, part_000's `checkForClosingPhrase` matches anyway and sets
`closingPhraseDetected` (and arms the hang-up), where the claim requires the
flag not to be set. -/
theorem c3_part000_sets_flag_mid_text :
    hasPhrase (jsLower earlyPhraseText) = true ∧
    (∀ p ∈ closingPhrases,
      containsSub (lastN 150 (jsLower earlyPhraseText)) p = false) ∧
    (initSession 0).flag = false ∧
    (phraseStep000 3 earlyPhraseText (initSession 0)).flag = true ∧
    (phraseStep000 3 earlyPhraseText (initSession 0)).grace.isSome = true := by
  refine ⟨by decide, by decide, rfl, by decide, by decide⟩

/-- Claim C4: when the part_002 silence timer fires with
`closingPhraseDetected` false and no ceiling exceeded, the session does not
close — no frame is sent, nothing is closed, the timer is re-armed and the
reset counter incremented; the fire that exceeds the maximum reset count
(the 21st consecutive fire against a maximum of 20), the maximum inactivity
time or the maximum call duration terminates the session, and with the flag
set the fire terminates through `safeEndCall` — so a ceiling fire terminates
regardless of phrase state. -/
theorem c4_silence_fire (now : Nat) (s : Session) :
    (s.flag = false → now - s.lastActivity ≤ maxInactivity →
      now - s.callStartTime ≤ maxCallDuration →
      s.resetCount + 1 ≤ maxSilenceResets →
      silenceFireStep now s =
        ({ s with resetCount := s.resetCount + 1, silenceArmed := true }, [])) ∧
    (s.flag = false → maxSilenceResets ≤ s.resetCount →
      Action.closeTw ∈ (silenceFireStep now s).2) ∧
    (s.flag = false → maxInactivity < now - s.lastActivity →
      Action.closeTw ∈ (silenceFireStep now s).2) ∧
    (s.flag = false → maxCallDuration < now - s.callStartTime →
      Action.closeTw ∈ (silenceFireStep now s).2) ∧
    (s.flag = true → Action.closeTw ∈ (silenceFireStep now s).2 ∧
      (silenceFireStep now s).1.callEnding = true) := by
  refine ⟨?_, ?_, ?_, ?_, ?_⟩
  · intro hf h1 h2 h3
    have e1 : ¬ (now - s.lastActivity > maxInactivity) := Nat.not_lt.mpr h1
    have e2 : ¬ (now - s.callStartTime > maxCallDuration) := Nat.not_lt.mpr h2
    have e3 : ¬ (s.resetCount + 1 > maxSilenceResets) := Nat.not_lt.mpr h3
    simp only [silenceFireStep, hf, Bool.not_false, if_true, if_neg e1,
      if_neg e2, if_neg e3]
  · intro hf h1
    simp only [silenceFireStep, hf, Bool.not_false, if_true]
    split
    · simp [forceEndCall]
    · split
      · simp [forceEndCall]
      · have e3 : s.resetCount + 1 > maxSilenceResets := by
          unfold maxSilenceResets at h1 ⊢
          omega
        rw [if_pos e3]
        simp [forceEndCall]
  · intro hf h1
    simp only [silenceFireStep, hf, Bool.not_false, if_true, if_pos h1]
    simp [forceEndCall]
  · intro hf h1
    simp only [silenceFireStep, hf, Bool.not_false, if_true]
    split
    · simp [forceEndCall]
    · simp [forceEndCall]
  · intro hf
    simp only [silenceFireStep, hf, Bool.not_true, Bool.false_eq_true, if_false]
    constructor
    · simp only [safeEndCall, hf, if_true]
      simp
    · simp only [safeEndCall, hf, if_true]

theorem audioSec_rearm {now : Nat} {m : AIMessage} {u : Session} {g : Grace}
    (hty : m.mtype = strLit "audio") (hstream : u.stream = true)
    (hflag : u.flag = true) (hg : u.grace = some g) :
    (audioSec now m u).1 =
      { u with lastActivity := now, resetCount := 0, lastAudioTime := now,
               grace := some ⟨now, 10000, 5000, g.src⟩, stale := false } := by
  have hcond : (decide (m.mtype = strLit "audio") && u.stream) = true := by
    rw [hstream, decide_eq_true hty]
    rfl
  simp only [audioSec]
  rw [if_pos hcond]
  have hcond2 : (u.flag && (u.grace.isSome || u.stale)) = true := by
    rw [hflag, hg]
    rfl
  rw [if_pos hcond2]
  split
  case h_1 g2 hg2 =>
    rw [hg] at hg2
    cases hg2
    rfl
  case h_2 hnone =>
    rw [hg] at hnone
    cases hnone

theorem restStep_pure_id {now : Nat} {m : AIMessage} {u : Session}
    (htc : m.tool_calls = none) (htr : m.transcript = none)
    (hterm : m.termination_reason = []) (hty : m.mtype = strLit "audio") :
    restStep now m u = (u, []) := by
  have h1 : toolCallsArray m = [] := by
    unfold toolCallsArray
    rw [htc, htr]
  have hne1 : ¬ (m.mtype = strLit "conversation_end") := by
    rw [hty]
    decide
  have hne2 : ¬ (m.mtype = strLit "user_transcript") := by
    rw [hty]
    decide
  simp only [restStep, h1, hterm]
  rw [if_neg (by decide : ¬ (tcHasEnd ([] : List ToolCall) = true))]
  rw [if_neg ?_, if_neg hne2]
  simp [hne1]

/-- Claim C5 (amended to the part_002 handler, which implements the
audio-driven reset): in every reachable session, an agent audio frame
processed while the closing-phrase timer is armed cancels the timer and
re-arms it at the frame's arrival time with the fresh 10 s wait; and a
closing-phrase timer only ever fires at least 10 s after the last audio
frame — never within the 5 s / 3 s trailing windows its callback checks —
so it never enters a "bot still speaking" wait chain and closes the call
through `safeEndCall` only. -/
theorem c5_audio_resets_grace :
    (∀ (s : Session) (t : Nat), Reach s t → ∀ g, s.grace = some g →
      ∀ (t' : Nat) (m : AIMessage), t ≤ t' →
        m.mtype = strLit "audio" → s.stream = true →
        m.tool_calls = none → m.transcript = none → m.respEvent = none →
        m.termination_reason = [] →
        (aiMessageStep t' m s).1.grace = some ⟨t', 10000, 5000, g.src⟩) ∧
    (∀ (s : Session) (t : Nat), Reach s t → ∀ g, s.grace = some g →
      ∀ t' : Nat, t' = g.armedAt + g.delay →
        10000 ≤ t' - s.lastAudioTime ∧ g.thresh ≤ 5000 ∧
        (graceFireStep t' s).1.chainEntered = false ∧
        (graceFireStep t' s).1.callEnding = true ∧
        Action.closeTw ∈ (graceFireStep t' s).2) := by
  constructor
  · intro s t hr g hg t' m ht hty hstream htc htr hre hterm
    have hinv := reach_inv hr
    have hflag : s.flag = true := (hinv.2.2.2.2 g hg).1
    have hend : checkForEndCallTool m = false := by
      unfold checkForEndCallTool
      rw [htc, htr, hre]
      rfl
    have e1 : (siteAStep t' m s).1 = { s with flag := preFlag s m } := by
      simp [siteAStep, hend]
    have epre : ({ s with flag := preFlag s m } : Session).flag = true := by
      show preFlag s m = true
      simp [preFlag, hend, hflag]
    have hne : ¬ (m.mtype = strLit "agent_response") := by
      rw [hty]
      decide
    have e2 := @audioSec_rearm t' m { s with flag := preFlag s m } g
      hty hstream epre hg
    show (agentSec t' m (audioSec t' m (siteAStep t' m s).1).1).1.grace = _
    rw [e1, e2, agentSec, if_neg hne, restStep_pure_id htc htr hterm hty]
  · intro s t hr g hg t' hfire
    have hinv := reach_inv hr
    obtain ⟨hflag, hga, hgt, hgd, hgth⟩ := hinv.2.2.2.2 g hg
    have h10 : 10000 ≤ t' - s.lastAudioTime := by omega
    have hnot : ¬ (t' - s.lastAudioTime < g.thresh) := by omega
    refine ⟨h10, hgth, ?_, ?_, ?_⟩
    · simp only [graceFireStep, hg, hnot, if_false]
      rw [show (safeEndCall { s with grace := none, stale := true }).1.chainEntered
          = s.chainEntered from by
        simp only [safeEndCall]
        split <;> rfl]
      exact hinv.2.2.1
    · simp only [graceFireStep, hg, hnot, if_false]
      simp only [safeEndCall, hflag, if_true]
    · simp only [graceFireStep, hg, hnot, if_false]
      simp only [safeEndCall]
      rw [if_pos (show ({ s with grace := none, stale := true } : Session).flag
        = true from hflag)]
      simp

/-- Claim C5's counterexample against the part_000 handler (also cited by the
claim): its audio branch forwards the frame and refreshes the audio stamp
but does NOT cancel or re-arm the armed closing-phrase timer. -/
theorem c5_part000_no_reset :
    sess000.grace = some ⟨0, 10000, 3000, ArmSrc.phrase⟩ ∧
    (aiAudioStep000 6 audioMsg sess000).1.lastAudioTime = 6 ∧
    (aiAudioStep000 6 audioMsg sess000).1.grace =
      some ⟨0, 10000, 3000, ArmSrc.phrase⟩ := by
  refine ⟨rfl, by decide, by decide⟩

theorem reach_sessGoodbye : Reach sessGoodbye 5 :=
  Reach.step 5 (Ev.ai goodbyeMsg)
    (Reach.step 1 Ev.start (Reach.init 0) (by omega) trivial) (by omega) trivial

theorem c5_audio_resets_grace_witness :
    (sessGoodbye.grace = some ⟨5, 25000, 5000, ArmSrc.phrase⟩ ∧
      sessGoodbye.stream = true ∧ audioMsg.mtype = strLit "audio") ∧
    (aiMessageStep 6 audioMsg sessGoodbye).1.grace =
      some ⟨6, 10000, 5000, ArmSrc.phrase⟩ ∧
    (10000 ≤ 25005 - sessGoodbye.lastAudioTime ∧
      (graceFireStep 25005 sessGoodbye).1.callEnding = true) := by
  refine ⟨⟨by decide, by decide, by decide⟩, ?_, ?_⟩
  · exact c5_audio_resets_grace.1 sessGoodbye 5 reach_sessGoodbye
      ⟨5, 25000, 5000, ArmSrc.phrase⟩ (by decide) 6 audioMsg (by omega)
      (by decide) (by decide) rfl rfl rfl rfl
  · have h := c5_audio_resets_grace.2 sessGoodbye 5 reach_sessGoodbye
      ⟨5, 25000, 5000, ArmSrc.phrase⟩ (by decide) 25005 (by decide)
    exact ⟨h.1, h.2.2.2.1⟩

/-- Claim C6's counterexample: once `callEnding` is true the part_002
handler still relays AI-provider audio to the telephony leg — the audio
branch (lines 988-1060) has no `callEnding` check — contradicting "no
further audio is ... forwarded in either direction". -/
theorem c6_ai_audio_relayed_while_terminating :
    sEnding.callEnding = true ∧
    Action.forwardOut (strLit "UklGRg") ∈ (aiMessageStep 7 audioMsg sEnding).2 := by
  refine ⟨rfl, by decide⟩

/-- Claim C6 (amended): once `callEnding` is true, inbound telephony frames
are dropped entirely — not forwarded, not buffered, no actions at all — the
pending queue of a reachable terminating session is empty, and the timers
are cancelled when the telephony leg's close event is processed; AI-provider
audio, however, is still relayed until the sockets actually close (see the
counterexample). -/
theorem c6_terminating_blocks_inbound (now : Nat) (p : Str) (s : Session)
    (h : s.callEnding = true) :
    mediaStep now p s = (s, []) ∧
    (closeTwStep s).1.grace = none ∧
    (closeTwStep s).1.silenceArmed = false ∧
    (∀ t, Reach s t → s.buffer = []) := by
  refine ⟨?_, rfl, rfl, ?_⟩
  · simp [mediaStep, h]
  · intro t hr
    exact (reach_inv hr).2.2.2.1 h

theorem reach_sessClosed : Reach sessClosed 25005 :=
  Reach.step 25005 Ev.graceFire reach_sessGoodbye (by omega)
    ⟨⟨5, 25000, 5000, ArmSrc.phrase⟩, by decide, by decide⟩

theorem c6_terminating_blocks_inbound_witness :
    sessClosed.callEnding = true ∧
    mediaStep 26000 (strLit "QQ==") sessClosed = (sessClosed, []) ∧
    (closeTwStep sessClosed).1.grace = none ∧
    sessClosed.buffer = [] :=
  have h := c6_terminating_blocks_inbound 26000 (strLit "QQ==") sessClosed (by decide)
  ⟨by decide, h.1, h.2.1, h.2.2.2 25005 reach_sessClosed⟩

/-- Claim C7: the pending-audio queue of every reachable session holds at
most 50 frames; while the AI leg is not ready, a frame arriving with the
queue below 50 is appended in arrival order, and a frame arriving with the
queue at 50 evicts the oldest frame, leaving the queue at exactly 50. -/
theorem c7_buffer_bound :
    (∀ (s : Session) (t : Nat), Reach s t → s.buffer.length ≤ 50) ∧
    (∀ (now : Nat) (p : Str) (s : Session), s.callEnding = false →
      (s.aiOpen && s.ready) = false → p.isEmpty = false →
      (s.buffer.length < 50 → (mediaStep now p s).1.buffer = s.buffer ++ [p]) ∧
      (s.buffer.length = 50 →
        (mediaStep now p s).1.buffer = s.buffer.tail ++ [p] ∧
        (mediaStep now p s).1.buffer.length = 50)) := by
  constructor
  · exact fun s t hr => (reach_inv hr).2.1
  · intro now p s h1 h2 hp
    have hb : ∀ s1 : Session, s1.buffer = s.buffer →
        (mediaStep now p s).1.buffer =
          (if (s.buffer ++ [p]).length > 50 then (s.buffer ++ [p]).tail
           else s.buffer ++ [p]) := by
      intro s1 _
      by_cases hs : (!s.setupAttempted && s.callSid) = true
      all_goals simp [mediaStep, h1, h2, hs, hp]
    have hbuf := hb s rfl
    constructor
    · intro hlt
      have hn : ¬(s.buffer ++ [p]).length > 50 := by
        simp only [List.length_append, List.length_cons, List.length_nil]
        omega
      rw [hbuf, if_neg hn]
    · intro heq
      have hy : (s.buffer ++ [p]).length > 50 := by
        simp only [List.length_append, List.length_cons, List.length_nil]
        omega
      rw [hbuf, if_pos hy]
      rcases hq : s.buffer with _ | ⟨c, rest⟩
      · rw [hq] at heq
        cases heq
      · rw [hq] at heq
        simp only [List.length_cons] at heq
        constructor
        · rfl
        · simp only [List.cons_append, List.tail_cons, List.length_append,
            List.length_cons, List.length_nil]
          omega

theorem c7_buffer_bound_witness :
    (initSession 0).buffer.length ≤ 50 ∧
    (sBuf50.callEnding = false ∧ (sBuf50.aiOpen && sBuf50.ready) = false ∧
      (strLit "AA==").isEmpty = false ∧ sBuf50.buffer.length = 50) ∧
    (mediaStep 2 (strLit "AA==") sBuf50).1.buffer =
      sBuf50.buffer.tail ++ [strLit "AA=="] ∧
    (mediaStep 2 (strLit "AA==") sBuf50).1.buffer.length = 50 :=
  have h := (c7_buffer_bound.2 2 (strLit "AA==") sBuf50 rfl rfl rfl).2 (by decide)
  ⟨c7_buffer_bound.1 (initSession 0) 0 (Reach.init 0),
    ⟨rfl, rfl, rfl, by decide⟩, h.1, h.2⟩

/-- Claim C9's counterexample: after a failed ElevenLabs setup the part_002
session state has no open AI leg and `elevenLabsSetupAttempted` still false,
so the next inbound media frame triggers the FALLBACK setup
(lines 1398-1513) — an automatic retry of the AI connection, which the claim
says never happens. -/
theorem c9_fallback_retry :
    sSetupFailed.setupAttempted = false ∧ sSetupFailed.aiOpen = false ∧
    sSetupFailed.callSid = true ∧
    Action.attemptSetup ∈ (mediaStep 2 (strLit "QQ==") sSetupFailed).2 := by
  refine ⟨rfl, rfl, rfl, by decide⟩

/-- Claim C9 (amended): after a setup failure the session stays alive on the
telephony side — a media frame is buffered, never forwarded, nothing is
stopped or closed — and exactly one automatic fallback setup attempt can
occur: it happens iff `elevenLabsSetupAttempted` is still false and a call
id is known, it marks the attempt, and once the flag is set the handler
emits nothing at all. -/
theorem c9_single_attempt (now : Nat) (p : Str) (s : Session)
    (h1 : s.callEnding = false) (h2 : (s.aiOpen && s.ready) = false) :
    (Action.attemptSetup ∈ (mediaStep now p s).2 ↔
      (!s.setupAttempted && s.callSid) = true) ∧
    (mediaStep now p s).1.setupAttempted =
      (s.setupAttempted || (!s.setupAttempted && s.callSid)) ∧
    (∀ q, Action.sendUserChunk q ∉ (mediaStep now p s).2) ∧
    Action.sendStop ∉ (mediaStep now p s).2 ∧
    Action.closeAI ∉ (mediaStep now p s).2 ∧
    Action.closeTw ∉ (mediaStep now p s).2 ∧
    (s.setupAttempted = true → (mediaStep now p s).2 = []) := by
  by_cases hs : (!s.setupAttempted && s.callSid) = true
  all_goals by_cases hp : p.isEmpty = true
  all_goals simp [mediaStep, h1, h2, hs, hp]
  all_goals
    simp only [Bool.and_eq_true, Bool.not_eq_true'] at hs
  all_goals simp [hs.1]

theorem c9_single_attempt_witness :
    (sSetupFailed.callEnding = false ∧
      (sSetupFailed.aiOpen && sSetupFailed.ready) = false) ∧
    (Action.attemptSetup ∈ (mediaStep 2 (strLit "QQ==") sSetupFailed).2 ↔
      (!sSetupFailed.setupAttempted && sSetupFailed.callSid) = true) ∧
    (mediaStep 2 (strLit "QQ==") sSetupFailed).1.setupAttempted =
      (sSetupFailed.setupAttempted
        || (!sSetupFailed.setupAttempted && sSetupFailed.callSid)) :=
  have h := c9_single_attempt 2 (strLit "QQ==") sSetupFailed rfl rfl
  ⟨⟨rfl, rfl⟩, h.1, h.2.1⟩

/-- Claim C1: evaluation of the campaign-outbound.js handler at the failing
input.  A message whose `agent_response_event` announces account activation
(no closing phrase anywhere) and carries an `end_call` tool, processed in a
session where `closingPhraseDetected` was never true, arms the 15 s hang-up
timer of lines 413-458 — whose callback, like the silence-timer callback of
lines 58-70, unconditionally sends the stop frame and closes both sockets.
So the session does NOT stay active and termination occurs outside the
ceiling path, against the claim; part_000/part_002 gate these same sites, so
the omission contradicts the repository's own stated rule. -/
theorem c1_campaign_unguarded_endcall :
    c1s0.flag = false ∧
    checkForEndCallTool activateEndMsg = true ∧
    hasPhrase (currentAgentText activateEndMsg) = false ∧
    hasPhrase (jsLower c1s0.lastAgentResponse) = false ∧
    (campAiStep 9 activateEndMsg c1s0).flag = false ∧
    (campAiStep 9 activateEndMsg c1s0).grace =
      some ⟨9, 15000, 3000, ArmSrc.directive⟩ ∧
    campGraceFire 16000 (campAiStep 9 activateEndMsg c1s0) =
      [Action.sendStop, Action.closeAI, Action.closeTw] ∧
    campSilenceFire c1s0 = [Action.sendStop, Action.closeAI, Action.closeTw] := by
  decide

theorem c4_silence_fire_witness :
    (sSetupFailed.flag = false ∧
      25001 - sSetupFailed.lastActivity ≤ maxInactivity ∧
      25001 - sSetupFailed.callStartTime ≤ maxCallDuration ∧
      sSetupFailed.resetCount + 1 ≤ maxSilenceResets) ∧
    silenceFireStep 25001 sSetupFailed =
      ({ sSetupFailed with resetCount := 1, silenceArmed := true }, []) ∧
    sessGoodbye.flag = true ∧
    Action.closeTw ∈ (silenceFireStep 30000 sessGoodbye).2 :=
  ⟨⟨by decide, by decide, by decide, by decide⟩,
    (c4_silence_fire 25001 sSetupFailed).1 (by decide) (by decide) (by decide)
      (by decide),
    by decide,
    ((c4_silence_fire 30000 sessGoodbye).2.2.2.2 (by decide)).1⟩

/-- Claim C10's counterexample: the relay is NOT the character-for-character
identity on payloads.  `"QQ"` is valid but non-canonical base64 (no padding);
`Buffer.from ("QQ", "base64").toString ("base64")` yields `"QQ=="`, so the
ready-path handler forwards a different string than it received. -/
theorem c10_noncanonical_payload_rewritten :
    (mediaStep 3 (strLit "QQ") sReady).2 =
      [Action.sendUserChunk (strLit "QQ==")] ∧
    strLit "QQ==" ≠ strLit "QQ" := by
  decide

theorem b64Val_b64CharOf : ∀ v < 64, b64Val (b64CharOf v) = some v := by
  decide

theorem b64Val_pad : b64Val '=' = none := by
  decide

theorem filterMap_b64Val_encode : ∀ bs : List Nat, (∀ b ∈ bs, b < 256) →
    (b64encode bs).filterMap b64Val = sextetsOfBytes bs := by
  intro bs
  induction bs using sextetsOfBytes.induct with
  | case1 a b c rest ih =>
    intro h
    have ha : a < 256 := h a (by simp)
    have hb : b < 256 := h b (by simp)
    have hc : c < 256 := h c (by simp)
    have e1 : b64Val (b64CharOf (a / 4)) = some (a / 4) :=
      b64Val_b64CharOf _ (by omega)
    have e2 : b64Val (b64CharOf (a % 4 * 16 + b / 16)) =
        some (a % 4 * 16 + b / 16) := b64Val_b64CharOf _ (by omega)
    have e3 : b64Val (b64CharOf (b % 16 * 4 + c / 64)) =
        some (b % 16 * 4 + c / 64) := b64Val_b64CharOf _ (by omega)
    have e4 : b64Val (b64CharOf (c % 64)) = some (c % 64) :=
      b64Val_b64CharOf _ (by omega)
    simp only [b64encode, sextetsOfBytes, List.filterMap_cons, e1, e2, e3, e4]
    exact congrArg _ (congrArg _ (congrArg _ (congrArg _
      (ih fun x hx => h x (by simp [hx])))))
  | case2 a b =>
    intro h
    have ha : a < 256 := h a (by simp)
    have hb : b < 256 := h b (by simp)
    have e1 : b64Val (b64CharOf (a / 4)) = some (a / 4) :=
      b64Val_b64CharOf _ (by omega)
    have e2 : b64Val (b64CharOf (a % 4 * 16 + b / 16)) =
        some (a % 4 * 16 + b / 16) := b64Val_b64CharOf _ (by omega)
    have e3 : b64Val (b64CharOf (b % 16 * 4)) = some (b % 16 * 4) :=
      b64Val_b64CharOf _ (by omega)
    simp only [b64encode, sextetsOfBytes, List.filterMap_cons, e1, e2, e3,
      b64Val_pad, List.filterMap_nil]
  | case3 a =>
    intro h
    have ha : a < 256 := h a (by simp)
    have e1 : b64Val (b64CharOf (a / 4)) = some (a / 4) :=
      b64Val_b64CharOf _ (by omega)
    have e2 : b64Val (b64CharOf (a % 4 * 16)) = some (a % 4 * 16) :=
      b64Val_b64CharOf _ (by omega)
    simp only [b64encode, sextetsOfBytes, List.filterMap_cons, e1, e2,
      b64Val_pad, List.filterMap_nil]
  | case4 =>
    intro _
    rfl

theorem bytesOfSextets_sextetsOfBytes : ∀ bs : List Nat,
    (∀ b ∈ bs, b < 256) → bytesOfSextets (sextetsOfBytes bs) = bs := by
  intro bs
  induction bs using sextetsOfBytes.induct with
  | case1 a b c rest ih =>
    intro h
    have ha : a < 256 := h a (by simp)
    have hb : b < 256 := h b (by simp)
    have hc : c < 256 := h c (by simp)
    simp only [sextetsOfBytes, bytesOfSextets, List.cons.injEq]
    refine ⟨by omega, by omega, by omega, ih fun x hx => h x (by simp [hx])⟩
  | case2 a b =>
    intro h
    have ha : a < 256 := h a (by simp)
    have hb : b < 256 := h b (by simp)
    simp only [sextetsOfBytes, bytesOfSextets, List.cons.injEq]
    exact ⟨by omega, by omega, trivial⟩
  | case3 a =>
    intro h
    have ha : a < 256 := h a (by simp)
    simp only [sextetsOfBytes, bytesOfSextets, List.cons.injEq]
    exact ⟨by omega, trivial⟩
  | case4 =>
    intro _
    rfl

theorem relayB64_b64encode (bs : List Nat) (h : ∀ b ∈ bs, b < 256) :
    relayB64 (b64encode bs) = b64encode bs := by
  unfold relayB64 b64decode
  rw [filterMap_b64Val_encode bs h, bytesOfSextets_sextetsOfBytes bs h]

/-- Claim C10 (amended): the forwarded `user_audio_chunk` is not the received
payload string itself but its decode/re-encode
`Buffer.from (payload, "base64").toString ("base64")` — on a non-canonical
payload the characters change (see the counterexample).  What does hold: the
ready-path handler forwards exactly one chunk, the round trip of the payload,
and on every canonical payload (the base64 encoding of any byte string) the
round trip is the identity, so such payloads pass through opaquely. -/
theorem c10_canonical_identity (now : Nat) (p : Str) (s : Session)
    (h1 : s.callEnding = false) (h2 : (s.aiOpen && s.ready) = true) :
    (mediaStep now p s).2 = [Action.sendUserChunk (relayB64 p)] ∧
    ∀ bs : List Nat, (∀ b ∈ bs, b < 256) →
      relayB64 (b64encode bs) = b64encode bs := by
  constructor
  · simp [mediaStep, h1, h2]
  · exact fun bs h => relayB64_b64encode bs h

theorem c10_canonical_identity_witness :
    (sReady.callEnding = false ∧ (sReady.aiOpen && sReady.ready) = true) ∧
    (mediaStep 3 (strLit "TWFu") sReady).2 =
      [Action.sendUserChunk (relayB64 (strLit "TWFu"))] ∧
    relayB64 (b64encode [77, 97, 110]) = b64encode [77, 97, 110] :=
  have h := c10_canonical_identity 3 (strLit "TWFu") sReady rfl rfl
  ⟨⟨rfl, rfl⟩, h.1, h.2 [77, 97, 110] (by decide)⟩

end Voicebot
